import Mathlib

/-!
Verification of the germ aggregation engine (github.com/mhristof/germ).

The Go sources under src/ are embedded shallowly: pure fragments become Lean
functions, the concurrent SSM discovery fan-out becomes an explicit
interleaving semantics, and fallible remote calls become `Option`-valued
environments.  Parts of the repository that live in the `iterm` package are
not among the provided sources; those definitions are modelled from the
specification and are marked `Modelled from the spec:` in their doc comments.
-/

namespace Germ

/-- Automation trigger record (iterm.Trigger): a regex matched against the
profile's output stream, an action kind, a parameter and a partial-line flag. -/
structure Trigger where
  partialLine : Bool := false
  Parameter : String
  Regex : String
  Action : String
deriving DecidableEq

/-- One keyboard-chord binding (iterm.KeyboardMap entry): an action code and
the text it injects. -/
structure KeyboardEntry where
  Action : Nat
  Text : String
deriving DecidableEq

/-- Connection-profile record (iterm.Profile), restricted to the fields the
aggregation engine manipulates: the human-meaningful `Name`, the `GUID`
identity key, the activation `Command`, the raw source configuration map, the
keyboard-chord map and the automation triggers. -/
structure Profile where
  Name : String
  GUID : String
  Command : String := ""
  Config : List (String × String) := []
  KeyboardMap : List (String × KeyboardEntry) := []
  Triggers : List Trigger := []
deriving DecidableEq

/-- Modelled from the spec: `iterm.NewProfile` (the iterm package is not under
src/).  The spec requires the identity key (GUID) to be "a stable identifier
derived deterministically from `name`".  The callers that are under src/ agree
with taking the GUID to be the name itself: `aws.add` creates the parent
profile under the name `login-<name>` and `cmd.generateCommands` then looks it
up with `FindGUID ("login-" ++ source)`, so the GUID of a profile must equal
its name for that lookup to succeed. -/
def NewProfile (name : String) (config : List (String × String)) : Profile :=
  { Name := name
    GUID := name
    Command := (config.lookup "Command").getD ""
    Config := config }

/-- Names of a list of profiles, in order. -/
def profileNames (l : List Profile) : List String := l.map (·.Name)

/-- The merge/dedup loop of `generateCmd` (src/cmd/generate.go): walk the
candidates in order with the set of already-seen names; a candidate whose name
was already seen is dropped and its name is reported as a duplicate warning,
otherwise the candidate is appended to the output and its name marked seen.
Returns (unique profiles, duplicate-name warnings). -/
def mergeDedup : List String → List Profile → List Profile × List String
  | _, [] => ([], [])
  | seen, p :: rest =>
    if p.Name ∈ seen then
      ((mergeDedup seen rest).1, p.Name :: (mergeDedup seen rest).2)
    else
      (p :: (mergeDedup (p.Name :: seen) rest).1, (mergeDedup (p.Name :: seen) rest).2)

/-- The merge step as run by `generateCmd`: the seen-set starts empty. -/
def merge (l : List Profile) : List Profile × List String := mergeDedup [] l

/-- Scenario profiles used to exercise the merge step on concrete input:
source A yields `x-foo`, source B yields a colliding `x-foo` and `x-bar`. -/
def profXFooA : Profile := NewProfile "x-foo" []

/-- Colliding candidate named `x-foo` coming later in the candidate order. -/
def profXFooB : Profile := NewProfile "x-foo" [("src", "B")]

/-- Candidate named `x-bar`. -/
def profXBar : Profile := NewProfile "x-bar" []

/-- Concrete candidate sequence with one duplicate name. -/
def demoCandidates : List Profile := [profXFooA, profXFooB, profXBar]

/-- The name of the built-in profile appended unconditionally by generateCmd
(src/cmd/generate.go, `DefaultProfile`). -/
def DefaultProfile : String := "default-profile"

/-- The built-in profile appended by generateCmd regardless of what the
external sources yield. -/
def defaultProfileRecord : Profile :=
  NewProfile DefaultProfile [("AllowTitleSetting", "true"), ("BadgeText", "")]

/-- Modelled from the spec: the augmentation passes `UpdateKeyboardMaps` and
`UpdateAWSSmartSelectionRules` (iterm package, not under src/).  Per the spec
they attach the fixed secret-store keyboard chord to profiles backed by a
secret-store entry (the `custom/` name prefix used by keychain.Profiles) and
attach collection-wide automation rules; they rewrite automation fields only
and leave `Name` and `GUID` unchanged. -/
def updateAutomation (p : Profile) : Profile :=
  if p.Name.data.take 7 = "custom/".data then
    { p with KeyboardMap := [("0x61-0x80000",
        { Action := 12
          Text := "eval $(/usr/bin/security find-generic-password  -s germ -w -a "
            ++ p.Name ++ ")" })] }
  else p

/-- The augmentation passes applied across the whole assembled collection. -/
def updateAutomationPasses (l : List Profile) : List Profile :=
  l.map updateAutomation

/-- Output of every external source collaborator feeding one generateCmd run:
AWS config profiles, kubernetes contexts, keychain entries, the vim profile,
ssh hosts, local config profiles, SSM discovery output, and the optional vault
profile (absent when `vault.Profile` fails). -/
structure Sources where
  awsProfiles : List Profile
  k8sProfiles : List Profile
  keyChainProfiles : List Profile
  vimProfile : Profile
  sshProfiles : List Profile
  configProfiles : List Profile
  ssmProfiles : List Profile
  vaultProfile : Option Profile

/-- The candidate sequence assembled by generateCmd in its fixed source
precedence order (src/cmd/generate.go): aws, k8s, keychain, the built-in
default profile, vim, ssh, config, ssm, vault — followed by the augmentation
passes, which run before the merge step. -/
def assembled (s : Sources) : List Profile :=
  updateAutomationPasses
    (s.awsProfiles ++ s.k8sProfiles ++ s.keyChainProfiles ++
      [defaultProfileRecord] ++ [s.vimProfile] ++ s.sshProfiles ++
      s.configProfiles ++ s.ssmProfiles ++ s.vaultProfile.toList)

/-- Lexicographic comparison of character lists, the order Go uses to compare
strings (byte-wise lexicographic; UTF-8 byte order agrees with code-point
order). -/
def charsLe : List Char → List Char → Bool
  | [], _ => true
  | _ :: _, [] => false
  | a :: as, b :: bs => if a = b then charsLe as bs else decide (a < b)

/-- Non-strict lexicographic order on strings. -/
def strLe (a b : String) : Bool := charsLe a.data b.data

/-- The GUID comparator of the report-diff branch (src/cmd/generate.go):
`current.Profiles[i].GUID < current.Profiles[j].GUID` handed to `sort.Slice`,
which produces the permutation sorted by GUID. -/
def sortByGUID (l : List Profile) : List Profile :=
  l.mergeSort (fun a b => strLe a.GUID b.GUID)

/-- go-cmp's `cmp.Diff` on two profile collections, abstracted to the property
the reconciliation branch relies on: it reports the empty string iff the two
values are structurally equal, and a non-empty human-readable summary
otherwise. -/
def cmpDiff (current fresh : List Profile) : String :=
  if current = fresh then "" else "collections differ"

/-- The report-diff branch of `generateCmd` (src/cmd/generate.go): sort both
the previously persisted collection and the freshly generated one by GUID,
compute the structural diff, and print `Updating (-current +new): ...` only
when the diff is non-empty.  Returns the printed line, if any. -/
def diffReport (current fresh : List Profile) : Option String :=
  let d := cmpDiff (sortByGUID current) (sortByGUID fresh)
  if d = "" then none else some ("Updating (-current +new): " ++ d)

/-- The three reconciliation modes of generateCmd. -/
inductive Mode
  | persist
  | reportDiff
  | print
deriving DecidableEq

/-- Units of work a generateCmd invocation performs, in order: source
discovery/generation, the merge/dedup step, and the final output action of
exactly one mode. -/
inductive RunEvent
  | discovery
  | mergeStep
  | output (m : Mode)
deriving DecidableEq

/-- Result of a generateCmd invocation: a fatal usage/config error, or
completion under one mode with the merged collection. -/
inductive RunResult
  | fatal (msg : String)
  | done (m : Mode) (profiles : List Profile)
deriving DecidableEq

/-- The command-line flags of generateCmd that select the reconciliation
mode (src/cmd/generate.go: `--write`, `--diff`, and the root `--dry-run`). -/
structure GenFlags where
  write : Bool
  diff : Bool
  dryRun : Bool
deriving DecidableEq

/-- Mode selection of the final `if write / else if diff / else` chain. -/
def selectMode (write diff : Bool) : Mode :=
  if write then .persist else if diff then .reportDiff else .print

/-- The generateCmd run function (src/cmd/generate.go): the two flag
compatibility checks run first and fail fatally before any source generation,
merge, or output work; otherwise the sources are generated and merged and
exactly one of the three output branches runs.  The first component records
the units of work performed, in order. -/
def generateRun (fl : GenFlags) (s : Sources) : List RunEvent × RunResult :=
  if fl.write && fl.dryRun then
    ([], .fatal "--write is incompatible with --dry-run")
  else if fl.write && fl.diff then
    ([], .fatal "--write and --diff are incompatible")
  else
    let merged := (merge (assembled s)).1
    ([.discovery, .mergeStep, .output (selectMode fl.write fl.diff)],
      .done (selectMode fl.write fl.diff) merged)

/-- The source label a child profile carries: `aws.add` stores the candidate
configuration in the profile, and a profile that depends on a parent is one
whose configuration has a `source_profile` entry. -/
def sourceLabel (p : Profile) : Option String :=
  p.Config.lookup "source_profile"

/-- Modelled from the spec: `Profiles.ProfileTree` (iterm package, not under
src/).  The spec: "produce a mapping from source label to its ordered child
profiles".  Each distinct source label carried by some profile maps to the
names of the profiles carrying that label, in collection order
(`cmd.generateCommands` consumes the children as name strings).  Go map
iteration order is unspecified, so the model enumerates the distinct labels in
an arbitrary fixed order. -/
def ProfileTree (l : List Profile) : List (String × List String) :=
  ((l.filterMap sourceLabel).dedup).map fun s =>
    (s, (l.filter (fun p => sourceLabel p == some s)).map (·.Name))

/-- Modelled from the spec: `Profiles.FindGUID` (iterm package, not under
src/): locate a profile in the collection by its identity key. -/
def FindGUID (l : List Profile) (g : String) : Option Profile :=
  l.find? (fun p => p.GUID == g)

/-- AWS regions list (src/aws/main.go `Regions`). -/
def Regions : List String :=
  ["us-east-2", "us-east-1", "us-west-1", "us-west-2", "af-south-1",
   "ap-east-1", "ap-south-1", "ap-northeast-3", "ap-northeast-2",
   "ap-southeast-1", "ap-southeast-2", "ap-northeast-1", "ca-central-1",
   "cn-north-1", "cn-northwest-1", "eu-central-1", "eu-west-1", "eu-west-2",
   "eu-south-1", "eu-west-3", "eu-north-1", "me-south-1", "sa-east-1"]

/-- From src/unnamed/part_003 `generateTemplate`: render the Go text/template
with the profile name; when the command mentions the `.Region` variable the
template is rendered once per AWS region into the same buffer. -/
def generateTemplate (command profileName : String) : String :=
  if (command.splitOn "\x7b\x7b .Region \x7d\x7d").length ≠ 1 then
    String.join (Regions.map fun r =>
      (command.replace "\x7b\x7b .Profile \x7d\x7d" profileName).replace
        "\x7b\x7b .Region \x7d\x7d" r)
  else
    command.replace "\x7b\x7b .Profile \x7d\x7d" profileName

/-- One source group of `generateCommands` (src/unnamed/part_002): before the
first child of a source is processed, the parent login profile named
`login-<source>` is looked up by identity key; a failed lookup is a panic
(modelled as `none`).  On success the parent's command (with the trailing
`|| sleep 60` guard stripped) is emitted, followed by one templated command
per child profile. -/
def commandsForSource (l : List Profile) (command source : String) :
    List String → Option (List String)
  | [] => some []
  | c :: cs =>
    match FindGUID l ("login-" ++ source) with
    | none => none
    | some ip =>
      some ((ip.Command.replace " || sleep 60'" "'") ::
        (c :: cs).map fun child =>
          generateTemplate ("AWS_PROFILE=\x7b\x7b .Profile \x7d\x7d " ++ command) child)

/-- Sequencing of fallible per-group results: the first failing group makes
the whole run fail (the Go code panics there). -/
def optionMapM {α β : Type} (f : α → Option β) : List α → Option (List β)
  | [] => some []
  | a :: as =>
    match f a, optionMapM f as with
    | some b, some bs => some (b :: bs)
    | _, _ => none

/-- `generateCommands` (src/unnamed/part_002): walk the hierarchy derived by
`ProfileTree` and emit, per source, the parent login command followed by the
per-child commands; a missing parent aborts the whole run (`none`). -/
def generateCommands (l : List Profile) (command : String) : Option (List String) :=
  (optionMapM (fun g => commandsForSource l command g.1 g.2) (ProfileTree l)).map
    List.flatten

/-- Child profile whose source label has no matching `login-` parent in the
collection, as `aws.add` would build it from an AWS config section that names
a `source_profile`. -/
def orphanChild : Profile :=
  NewProfile "-dev" [("source_profile", "prod"), ("region", "eu-west-1")]

/-- `notFound` (src/unnamed/part_000): the shell's command-not-found line for
a missing tool. -/
def notFound (name : String) : String :=
  "^(bash|/bin/sh): " ++ name ++ ": (command )?not found"

/-- `yum` (src/unnamed/part_000): the yum install syntax, with the Debian
package name translated where the Red Hat name differs. -/
def yum (name : String) : String :=
  let name' := if name = "openssh-client" then "openssh-clients" else name
  "(yum install --assumeyes " ++ name' ++ ")"

/-- `apk` (src/unnamed/part_000): the Alpine install syntax. -/
def apk (name : String) : String :=
  "apk add --no-cache " ++ name

/-- The apt-get member of the fallback chain (src/unnamed/part_000 `apt`). -/
def aptGetInstall (name : String) : String :=
  "(apt-get update && apt-get --yes --no-install-recommends install " ++ name ++ ")"

/-- Go's `strings.Join`. -/
def joinSep (sep : String) : List String → String
  | [] => ""
  | [x] => x
  | x :: xs => x ++ sep ++ joinSep sep xs

/-- `apt` (src/unnamed/part_000): the remediation command for a missing tool,
an ordered `||` fallback chain over the apt-get, yum and apk syntaxes. -/
def apt (name : String) : String :=
  joinSep " || " [aptGetInstall name, yum name, apk name]

/-- `Triggers` (src/unnamed/part_000): the standard automation triggers
attached to every eligible profile, parameterised by the expanded paths of the
local ssh keys. -/
def Triggers (idRsa idEd : String) : List Trigger :=
  [{ partialLine := true, Parameter := "id_rsa",
     Regex := "^Enter passphrase for (key ')?" ++ idRsa,
     Action := "PasswordTrigger" },
   { partialLine := true, Parameter := "id_ed25519",
     Regex := "^Enter passphrase for (key ')?" ++ idEd,
     Action := "PasswordTrigger" },
   { Parameter := apt "openssh-client", Regex := notFound "ssh-add",
     Action := "SendTextTrigger" },
   { Parameter := apt "git", Regex := notFound "git",
     Action := "SendTextTrigger" },
   { Parameter := apt "iputils-ping", Regex := notFound "ping",
     Action := "SendTextTrigger" },
   { Parameter := "terraform init",
     Regex := "^This module is not yet installed. Run \"terraform init\" to install all modules",
     Action := "SendTextTrigger" },
   { Parameter := "chmod +x !:0 && !!",
     Regex := "^zsh: permission denied: .*",
     Action := "SendTextTrigger" },
   { Parameter := "git push --set-upstream origin $(git rev-parse --abbrev-ref HEAD)\n",
     Regex := "^To push the current branch and set the remote as upstream",
     Action := "SendTextTrigger" }]

/-- The missing-git remediation trigger as it appears in the standard trigger
list. -/
def gitNotFoundTrigger : Trigger :=
  { Parameter := apt "git", Regex := notFound "git", Action := "SendTextTrigger" }

/-- Go map assignment `m[k] = v` on an association list: overwrite the entry
if the key is present, append it otherwise. -/
def assocInsert (m : List (String × String)) (k v : String) :
    List (String × String) :=
  if (m.lookup k).isSome then
    m.map fun kv => if kv.1 = k then (k, v) else kv
  else
    m ++ [(k, v)]

/-- The profile `generateForProfile` (src/ssm/main.go) emits for one
discovered instance: named `<alias>:<region>:ssm-<name>`, with the connect
command and tags in the configuration. -/
def ssmProfile (profile region accountAlias accountID name : String) : Profile :=
  NewProfile (accountAlias ++ ":" ++ region ++ ":ssm-" ++ name)
    [("Initial Text",
        "bash -c 'AWS_PROFILE=" ++ profile ++ " ssm " ++ name ++ "'"),
     ("Custom Command", "No"),
     ("Tags", "AWS, " ++ accountAlias ++ ",account=" ++ accountID)]

/-- One discovery worker (goroutine) of `ssm.Generate` (src/ssm/main.go): its
AWS profile (credential scope), region, resolved account alias and id, the
instances its DescribeInstanceInformation call returned that it has not yet
processed, and — between the accumulator membership check and the later
insert — the instance that passed the check. -/
structure SsmWorker where
  profile : String
  region : String
  accountAlias : String
  accountID : String
  pending : List (String × String)
  checked : Option (String × String) := none
deriving DecidableEq

/-- Shared state of the discovery fan-out: the accumulator mapping instance
id to assigned name, and the profiles emitted so far.  In the code each
worker appends to a local slice that is concatenated into the result under
the mutex when the worker finishes; the model appends at emission time, which
preserves the multiset of emitted profiles that the claim counts. -/
structure SsmState where
  instances : List (String × String)
  emitted : List Profile
deriving DecidableEq

/-- One atomic step of a worker against the shared state, at the granularity
the code gives it: in src/ssm/main.go the accumulator membership check
(`_, found := instanceIDs[*instance.InstanceId]`) and the insert
(`instanceIDs[*instance.InstanceId] = name`) both happen inside
`generateForProfile`, outside the mutex — the `lock` in `Generate` guards
only the merge of the result slices after a worker returns.  The check and
the insert are therefore separate atomic actions with remote EC2 calls
between them, and steps of other workers may interleave. -/
def ssmStep (st : SsmState) (w : SsmWorker) : SsmState × SsmWorker :=
  match w.checked with
  | some (id, name) =>
    ({ instances := assocInsert st.instances id name
       emitted := st.emitted ++
         [ssmProfile w.profile w.region w.accountAlias w.accountID name] },
      { w with checked := none })
  | none =>
    match w.pending with
    | [] => (st, w)
    | (id, name) :: rest =>
      if (st.instances.lookup id).isSome then
        (st, { w with pending := rest })
      else
        (st, { w with pending := rest, checked := some (id, name) })

/-- Run the fan-out under an explicit schedule: at each tick the indexed
worker performs its next atomic step. -/
def ssmRun (st : SsmState) (ws : List SsmWorker) :
    List Nat → SsmState × List SsmWorker
  | [] => (st, ws)
  | i :: sched =>
    match ws[i]? with
    | none => ssmRun st ws sched
    | some w =>
      let sw := ssmStep st w
      ssmRun sw.1 (ws.set i sw.2) sched

/-- Scope `p1`, which sees instance `i-123` named `web`. -/
def scopeP1 : SsmWorker :=
  { profile := "p1", region := "eu-west-1", accountAlias := "alias1",
    accountID := "111111111111", pending := [("i-123", "web")] }

/-- Scope `p2`, which sees the same instance `i-123` named `web`. -/
def scopeP2 : SsmWorker :=
  { profile := "p2", region := "eu-west-1", accountAlias := "alias2",
    accountID := "222222222222", pending := [("i-123", "web")] }

/-- Environment of one scope's remote calls in `generateForProfile`
(src/ssm/main.go), with `none` standing for a failed call — the AWS SDK
returns a nil output struct alongside the error, so a later field access on
that output dereferences nil. -/
structure AwsScopeEnv where
  loadConfigOk : Bool
  callerIdentity : Option String
  accountAliases : Option (List String)
  instanceInfo : Option (List String)
  ec2Describe : List (String × List (String × String))
deriving DecidableEq

/-- Result of one scope's unit of work: its profiles and the accumulator as
returned, or a runtime panic (which in Go kills the whole process, not just
the scope). -/
inductive ScopeOutcome
  | ok (profiles : List Profile) (instanceIDs : List (String × String))
  | crash (msg : String)
deriving DecidableEq

/-- The tag loop of `generateForProfile`: the last `Name` tag wins. -/
def nameFromTags (tags : List (String × String)) : String :=
  tags.foldl (fun acc kv => if kv.1 = "Name" then kv.2 else acc) ""

/-- The per-instance loop of `generateForProfile` (src/ssm/main.go): call
DescribeInstances (an error is logged and leaves a nil response), skip the
instance if it is already in the accumulator, otherwise read the tags off the
EC2 response — a nil response panics right here — then emit the profile and
record the instance. -/
def ssmInstanceLoop (env : AwsScopeEnv)
    (profile region accountAlias accountID : String) :
    List (String × String) → List Profile → List String → ScopeOutcome
  | acc, ret, [] => .ok ret acc
  | acc, ret, id :: rest =>
    if (acc.lookup id).isSome then
      ssmInstanceLoop env profile region accountAlias accountID acc ret rest
    else
      match env.ec2Describe.lookup id with
      | none => .crash "invalid memory address: ec2Instance.Reservations on nil DescribeInstances output"
      | some tags =>
        ssmInstanceLoop env profile region accountAlias accountID
          (assocInsert acc id (nameFromTags tags))
          (ret ++ [ssmProfile profile region accountAlias accountID
            (nameFromTags tags)])
          rest

/-- `generateForProfile` (src/ssm/main.go), sequential semantics of one
scope's four-step chain: config load failure or GetCallerIdentity failure
end the scope with zero profiles; a ListAccountAliases FAILURE is only
logged, after which `accountAliases.AccountAliases` is read off the nil
response — a nil-pointer dereference, modelled as `.crash`; a SUCCESSFUL
alias call with zero aliases falls back to the raw account id; a
DescribeInstanceInformation failure ends the scope with zero profiles. -/
def generateForProfile (env : AwsScopeEnv) (profile region : String)
    (instanceIDs : List (String × String)) : ScopeOutcome :=
  if !env.loadConfigOk then .ok [] instanceIDs
  else
    match env.callerIdentity with
    | none => .ok [] instanceIDs
    | some accountID =>
      match env.accountAliases with
      | none => .crash "invalid memory address: accountAliases.AccountAliases on nil ListAccountAliases output"
      | some aliases =>
        let accountAlias := aliases.headD accountID
        match env.instanceInfo with
        | none => .ok [] instanceIDs
        | some ids =>
          ssmInstanceLoop env profile region accountAlias accountID
            instanceIDs [] ids

/-- Scope environment whose GetCallerIdentity succeeds and whose
ListAccountAliases call fails (nil output plus error). -/
def aliasFailEnv : AwsScopeEnv :=
  { loadConfigOk := true
    callerIdentity := some "123456789012"
    accountAliases := none
    instanceInfo := some ["i-1"]
    ec2Describe := [("i-1", [("Name", "web")])] }

theorem mergeDedup_sublist (seen : List String) (l : List Profile) :
    (mergeDedup seen l).1.Sublist l := by
  induction l generalizing seen with
  | nil => simp [mergeDedup]
  | cons q rest ih =>
    by_cases h : q.Name ∈ seen
    · simpa [mergeDedup, h] using (ih seen).cons q
    · simpa [mergeDedup, h] using (ih (q.Name :: seen)).cons₂ q

theorem mergeDedup_notMem_seen (seen : List String) (l : List Profile) :
    ∀ p ∈ (mergeDedup seen l).1, p.Name ∉ seen := by
  induction l generalizing seen with
  | nil => simp [mergeDedup]
  | cons q rest ih =>
    intro p hp
    by_cases h : q.Name ∈ seen
    · rw [mergeDedup, if_pos h] at hp
      exact ih seen p hp
    · rw [mergeDedup, if_neg h] at hp
      rcases List.mem_cons.mp hp with rfl | hp'
      · exact h
      · intro hs
        exact ih (q.Name :: seen) p hp' (List.mem_cons_of_mem _ hs)

theorem mergeDedup_names_mem (seen : List String) (l : List Profile) (x : String) :
    x ∈ profileNames (mergeDedup seen l).1 ↔
      x ∈ profileNames l ∧ x ∉ seen := by
  induction l generalizing seen with
  | nil => simp [mergeDedup, profileNames]
  | cons q rest ih =>
    by_cases h : q.Name ∈ seen
    · rw [mergeDedup, if_pos h]
      simp only [profileNames, List.map_cons, List.mem_cons]
      constructor
      · intro hm
        have := (ih seen).mp hm
        exact ⟨Or.inr this.1, this.2⟩
      · rintro ⟨hx | hx, hs⟩
        · exact absurd (hx ▸ h) hs
        · exact (ih seen).mpr ⟨hx, hs⟩
    · rw [mergeDedup, if_neg h]
      simp only [profileNames, List.map_cons, List.mem_cons]
      constructor
      · rintro (rfl | hm)
        · exact ⟨Or.inl rfl, h⟩
        · have := (ih (q.Name :: seen)).mp hm
          refine ⟨Or.inr this.1, fun hs => this.2 (List.mem_cons_of_mem _ hs)⟩
      · rintro ⟨hx | hx, hs⟩
        · exact Or.inl hx
        · by_cases hq : x = q.Name
          · exact Or.inl hq
          · exact Or.inr ((ih (q.Name :: seen)).mpr
              ⟨hx, fun hm => (List.mem_cons.mp hm).elim hq hs⟩)

theorem mergeDedup_names_nodup (seen : List String) (l : List Profile) :
    (profileNames (mergeDedup seen l).1).Nodup := by
  induction l generalizing seen with
  | nil => simp [mergeDedup, profileNames]
  | cons q rest ih =>
    by_cases h : q.Name ∈ seen
    · rw [mergeDedup, if_pos h]
      exact ih seen
    · rw [mergeDedup, if_neg h]
      simp only [profileNames, List.map_cons]
      refine List.nodup_cons.mpr ⟨fun hm => ?_, ih (q.Name :: seen)⟩
      exact ((mergeDedup_names_mem (q.Name :: seen) rest q.Name).mp hm).2
        (List.mem_cons_self _ _)

theorem mergeDedup_find? (seen : List String) (l : List Profile) :
    ∀ p ∈ (mergeDedup seen l).1,
      l.find? (fun q => q.Name == p.Name) = some p := by
  induction l generalizing seen with
  | nil => simp [mergeDedup]
  | cons q rest ih =>
    intro p hp
    by_cases h : q.Name ∈ seen
    · rw [mergeDedup, if_pos h] at hp
      have hne : (q.Name == p.Name) = false := by
        have := mergeDedup_notMem_seen seen rest p hp
        exact beq_eq_false_iff_ne.mpr (fun he => this (he ▸ h))
      rw [List.find?_cons, hne]
      exact ih seen p hp
    · rw [mergeDedup, if_neg h] at hp
      rcases List.mem_cons.mp hp with rfl | hp'
      · rw [List.find?_cons, beq_self_eq_true]
      · have hne : (q.Name == p.Name) = false := by
          have := mergeDedup_notMem_seen (q.Name :: seen) rest p hp'
          exact beq_eq_false_iff_ne.mpr
            (fun he => this (he ▸ List.mem_cons_self _ _))
        rw [List.find?_cons, hne]
        exact ih (q.Name :: seen) p hp'

theorem mergeDedup_length (seen : List String) (l : List Profile) :
    (mergeDedup seen l).1.length + (mergeDedup seen l).2.length = l.length := by
  induction l generalizing seen with
  | nil => simp [mergeDedup]
  | cons q rest ih =>
    by_cases h : q.Name ∈ seen
    · rw [mergeDedup, if_pos h]
      simp only [List.length_cons]
      have := ih seen
      omega
    · rw [mergeDedup, if_neg h]
      simp only [List.length_cons]
      have := ih (q.Name :: seen)
      omega

theorem mergeDedup_warn_mem (seen : List String) (l : List Profile) :
    ∀ w ∈ (mergeDedup seen l).2,
      w ∈ seen ∨ w ∈ profileNames (mergeDedup seen l).1 := by
  induction l generalizing seen with
  | nil => simp [mergeDedup]
  | cons q rest ih =>
    intro w hw
    by_cases h : q.Name ∈ seen
    · rw [mergeDedup, if_pos h] at hw ⊢
      rcases List.mem_cons.mp hw with rfl | hw'
      · exact Or.inl h
      · exact ih seen w hw'
    · rw [mergeDedup, if_neg h] at hw ⊢
      rcases ih (q.Name :: seen) w hw with hs | hm
      · rcases List.mem_cons.mp hs with rfl | hs'
        · exact Or.inr (by simp [profileNames])
        · exact Or.inl hs'
      · refine Or.inr ?_
        simp only [profileNames, List.map_cons]
        exact List.mem_cons_of_mem _ hm

theorem mergeDedup_of_nodup (seen : List String) (l : List Profile)
    (h1 : (profileNames l).Nodup) (h2 : ∀ p ∈ l, p.Name ∉ seen) :
    mergeDedup seen l = (l, []) := by
  induction l generalizing seen with
  | nil => rfl
  | cons q rest ih =>
    have hq : q.Name ∉ seen := h2 q (List.mem_cons_self _ _)
    rw [mergeDedup, if_neg hq]
    have hnames : (profileNames rest).Nodup := by
      simpa [profileNames] using (List.nodup_cons.mp (by simpa [profileNames] using h1)).2
    have hqn : q.Name ∉ profileNames rest :=
      (List.nodup_cons.mp (by simpa [profileNames] using h1)).1
    have hrest : ∀ p ∈ rest, p.Name ∉ q.Name :: seen := by
      intro p hp hmem
      rcases List.mem_cons.mp hmem with he | hs
      · exact hqn (he ▸ List.mem_map_of_mem (·.Name) hp)
      · exact h2 p (List.mem_cons_of_mem _ hp) hs
    rw [ih (q.Name :: seen) hnames hrest]

/-- claim C1 — For every input sequence of candidate profiles, the merge step
outputs exactly the first occurrence of each distinct name in first-seen order
(the output is a subsequence of the input, each output element is the first
input element bearing its name, and every input name is represented), discards
every later candidate whose name was already seen while reporting a non-fatal
warning identifying the duplicate name (kept + warned = all candidates, and
every warned name is a name of the output), and the resulting collection
contains no two profiles with equal name. -/
theorem merge_first_seen_dedup (l : List Profile) :
    (merge l).1.Sublist l ∧
    (profileNames (merge l).1).Nodup ∧
    (∀ p ∈ (merge l).1, l.find? (fun q => q.Name == p.Name) = some p) ∧
    (∀ q ∈ l, q.Name ∈ profileNames (merge l).1) ∧
    ((merge l).1.length + (merge l).2.length = l.length) ∧
    (∀ w ∈ (merge l).2, w ∈ profileNames (merge l).1) := by
  refine ⟨mergeDedup_sublist [] l, mergeDedup_names_nodup [] l,
    mergeDedup_find? [] l, ?_, mergeDedup_length [] l, ?_⟩
  · intro q hq
    exact (mergeDedup_names_mem [] l q.Name).mpr
      ⟨List.mem_map_of_mem (·.Name) hq, by simp⟩
  · intro w hw
    rcases mergeDedup_warn_mem [] l w hw with hs | hm
    · exact absurd hs (by simp)
    · exact hm

/-- Witness for claim C1 at a concrete input: `x-foo` from source A is in the
merged output and is the first candidate bearing that name; the duplicate is
warned about and the merged collection is `[x-foo (from A), x-bar]`. -/
theorem merge_first_seen_dedup_witness :
    profXFooA ∈ (merge demoCandidates).1 ∧
    demoCandidates.find? (fun q => q.Name == profXFooA.Name) = some profXFooA ∧
    (merge demoCandidates).1 = [profXFooA, profXBar] ∧
    (merge demoCandidates).2 = ["x-foo"] :=
  ⟨by decide, (merge_first_seen_dedup demoCandidates).2.2.1 profXFooA (by decide),
    by decide, by decide⟩

/-- claim C8 — The merge/dedup step is idempotent: applying the merge step to
a collection that is already its own output (no two names equal) returns that
collection unchanged, element for element and in order, with no duplicate
warnings. -/
theorem merge_idempotent (l : List Profile) :
    merge ((merge l).1) = ((merge l).1, []) :=
  mergeDedup_of_nodup [] (merge l).1 (mergeDedup_names_nodup [] l)
    (fun p _ => by simp)

/-- claim C10 — Every collection produced by the generation command contains a
built-in profile named `default-profile`: it is appended unconditionally, for
every possible output of the external sources (including all-empty), survives
the augmentation passes unchanged, and the merged output collection always
contains a profile with that name. -/
theorem default_profile_always_present (s : Sources) :
    defaultProfileRecord ∈ assembled s ∧
    ∃ p ∈ (merge (assembled s)).1, p.Name = DefaultProfile := by
  have hmem : defaultProfileRecord ∈ assembled s := by
    refine List.mem_map.mpr ⟨defaultProfileRecord, ?_, by decide⟩
    simp [List.mem_append]
  refine ⟨hmem, ?_⟩
  have hname : DefaultProfile ∈ profileNames (merge (assembled s)).1 :=
    (mergeDedup_names_mem [] (assembled s) DefaultProfile).mpr
      ⟨List.mem_map_of_mem (·.Name) hmem, by simp⟩
  rcases List.mem_map.mp hname with ⟨p, hp, hpn⟩
  exact ⟨p, hp, hpn⟩

theorem charsLe_total (x y : List Char) : charsLe x y = true ∨ charsLe y x = true := by
  induction x generalizing y with
  | nil => exact Or.inl rfl
  | cons a as ih =>
    cases y with
    | nil => exact Or.inr rfl
    | cons b bs =>
      by_cases hab : a = b
      · subst hab
        rcases ih bs with h | h
        · exact Or.inl (by simp [charsLe, h])
        · exact Or.inr (by simp [charsLe, h])
      · rcases lt_trichotomy a b with hlt | heq | hgt
        · exact Or.inl (by simp [charsLe, hab, hlt])
        · exact absurd heq hab
        · exact Or.inr (by simp [charsLe, Ne.symm hab, hgt])

theorem charsLe_trans (x y z : List Char) :
    charsLe x y = true → charsLe y z = true → charsLe x z = true := by
  induction x generalizing y z with
  | nil => intro _ _; rfl
  | cons a as ih =>
    cases y with
    | nil => intro h _; exact absurd h (by simp [charsLe])
    | cons b bs =>
      cases z with
      | nil => intro _ h; exact absurd h (by simp [charsLe])
      | cons c cs =>
        intro h1 h2
        by_cases hab : a = b
        · subst hab
          by_cases hac : a = c
          · subst hac
            rw [charsLe, if_pos rfl] at h1 h2 ⊢
            exact ih bs cs h1 h2
          · rw [charsLe, if_neg hac] at h2 ⊢
            exact h2
        · rw [charsLe, if_neg hab] at h1
          have hab' : a < b := by simpa using h1
          by_cases hbc : b = c
          · subst hbc
            rw [charsLe, if_neg hab]
            simpa using hab'
          · rw [charsLe, if_neg hbc] at h2
            have hbc' : b < c := by simpa using h2
            have hac' : a < c := lt_trans hab' hbc'
            rw [charsLe, if_neg (ne_of_lt hac')]
            simpa using hac'

theorem charsLe_antisymm (x y : List Char) :
    charsLe x y = true → charsLe y x = true → x = y := by
  induction x generalizing y with
  | nil =>
    cases y with
    | nil => intro _ _; rfl
    | cons b bs => intro _ h; exact absurd h (by simp [charsLe])
  | cons a as ih =>
    cases y with
    | nil => intro h _; exact absurd h (by simp [charsLe])
    | cons b bs =>
      intro h1 h2
      by_cases hab : a = b
      · subst hab
        rw [charsLe, if_pos rfl] at h1 h2
        rw [ih bs h1 h2]
      · rw [charsLe, if_neg hab] at h1
        rw [charsLe, if_neg (Ne.symm hab)] at h2
        exact absurd (lt_trans (by simpa using h1) (by simpa using h2))
          (lt_irrefl a)

theorem strLe_antisymm (a b : String) :
    strLe a b = true → strLe b a = true → a = b := by
  intro h1 h2
  exact String.ext (charsLe_antisymm _ _ h1 h2)

theorem sortByGUID_perm_eq (l₁ l₂ : List Profile) (hp : l₁.Perm l₂)
    (hn : (l₁.map (·.GUID)).Nodup) : sortByGUID l₁ = sortByGUID l₂ := by
  have trans : ∀ a b c : Profile, strLe a.GUID b.GUID = true →
      strLe b.GUID c.GUID = true → strLe a.GUID c.GUID = true :=
    fun a b c => charsLe_trans _ _ _
  have total : ∀ a b : Profile,
      (strLe a.GUID b.GUID || strLe b.GUID a.GUID) = true := by
    intro a b
    rcases charsLe_total a.GUID.data b.GUID.data with h | h <;> simp [strLe, h]
  have s1 := List.sorted_mergeSort trans total l₁
  have s2 := List.sorted_mergeSort trans total l₂
  have p1 := List.mergeSort_perm l₁ (fun a b => strLe a.GUID b.GUID)
  have p2 := List.mergeSort_perm l₂ (fun a b => strLe a.GUID b.GUID)
  have hn2 : (l₂.map (·.GUID)).Nodup := (hp.map (·.GUID)).nodup hn
  have hns1 : ((sortByGUID l₁).map (·.GUID)).Nodup :=
    ((p1.map (·.GUID)).symm).nodup hn
  have hns2 : ((sortByGUID l₂).map (·.GUID)).Nodup :=
    ((p2.map (·.GUID)).symm).nodup hn2
  have sorted1 : List.Sorted
      (fun a b : Profile => strLe a.GUID b.GUID = true ∧ a.GUID ≠ b.GUID)
      (sortByGUID l₁) :=
    s1.and (List.pairwise_map.mp hns1)
  have sorted2 : List.Sorted
      (fun a b : Profile => strLe a.GUID b.GUID = true ∧ a.GUID ≠ b.GUID)
      (sortByGUID l₂) :=
    s2.and (List.pairwise_map.mp hns2)
  haveI : IsAntisymm Profile
      (fun a b : Profile => strLe a.GUID b.GUID = true ∧ a.GUID ≠ b.GUID) :=
    ⟨fun a b hab hba => absurd (strLe_antisymm _ _ hab.1 hba.1) hab.2⟩
  exact List.eq_of_perm_of_sorted (p1.trans (hp.trans p2.symm)) sorted1 sorted2

/-- claim C6 — In report-diff mode, both the previously persisted collection
and the freshly generated collection are sorted by identity key before
comparison, so the comparison is order-independent: comparing a collection
(whose identity keys are pairwise distinct, the invariant the engine
guarantees) against a permutation of itself prints nothing, and comparing
against a collection with an added profile prints a non-empty human-readable
summary. -/
theorem diff_order_independent (old fresh : List Profile) :
    (old.Perm fresh → (old.map (·.GUID)).Nodup → diffReport old fresh = none) ∧
    (∀ p : Profile, ∃ msg, diffReport old (old ++ [p]) = some msg ∧ msg ≠ "") := by
  constructor
  · intro hp hn
    have h := sortByGUID_perm_eq old fresh hp hn
    simp [diffReport, cmpDiff, h]
  · intro p
    have hne : sortByGUID old ≠ sortByGUID (old ++ [p]) := by
      intro he
      have hlen := congrArg List.length he
      rw [sortByGUID, sortByGUID, List.length_mergeSort, List.length_mergeSort,
        List.length_append] at hlen
      simp at hlen
    refine ⟨"Updating (-current +new): " ++ "collections differ", ?_, by decide⟩
    simp [diffReport, cmpDiff, hne]

/-- Witness for claim C6 at concrete input: a two-profile collection compared
against its transposition prints nothing; against itself with `x-foo` (from
source B) appended it prints a non-empty summary. -/
theorem diff_order_independent_witness :
    diffReport [profXBar, profXFooA] [profXFooA, profXBar] = none ∧
    ∃ msg, diffReport [profXBar, profXFooA]
      ([profXBar, profXFooA] ++ [profXFooB]) = some msg ∧ msg ≠ "" :=
  ⟨(diff_order_independent [profXBar, profXFooA] [profXFooA, profXBar]).1
      (by decide) (by decide),
    (diff_order_independent [profXBar, profXFooA] [profXFooA, profXBar]).2
      profXFooB⟩

/-- claim C5 — Selecting persist (`--write`) and report-diff (`--diff`)
together is rejected as a usage error before any discovery, merge, or output
work begins (no work event is recorded and the result is fatal), and exactly
one of the three modes is ever executed per invocation: a completed run
performs exactly one output event, whose mode is the one determined by the
flags. -/
theorem modes_mutually_exclusive (fl : GenFlags) (s : Sources) :
    (fl.write = true → fl.diff = true →
      (generateRun fl s).1 = [] ∧
        ∃ msg, (generateRun fl s).2 = .fatal msg) ∧
    (∀ m profiles, (generateRun fl s).2 = .done m profiles →
      m = selectMode fl.write fl.diff ∧
      (generateRun fl s).1 = [.discovery, .mergeStep, .output m]) ∧
    (∀ m m', RunEvent.output m ∈ (generateRun fl s).1 →
      RunEvent.output m' ∈ (generateRun fl s).1 → m = m') := by
  obtain ⟨w, d, dr⟩ := fl
  refine ⟨?_, ?_, ?_⟩
  · rintro rfl rfl
    cases dr <;> simp [generateRun]
  · intro m profiles hm
    cases w <;> cases d <;> cases dr <;> simp_all [generateRun, selectMode]
  · intro m m' hm hm'
    cases w <;> cases d <;> cases dr <;> simp_all [generateRun, selectMode]

/-- Witness for claim C5 at concrete input: with `--write` and `--diff` both
set, no work event is recorded and the run fails fatally. -/
theorem modes_mutually_exclusive_witness :
    (generateRun ⟨true, true, false⟩
      ⟨[], [], [], NewProfile "vim" [], [], [], [], none⟩).1 = [] ∧
    ∃ msg, (generateRun ⟨true, true, false⟩
      ⟨[], [], [], NewProfile "vim" [], [], [], [], none⟩).2 =
        RunResult.fatal msg :=
  (modes_mutually_exclusive ⟨true, true, false⟩
      ⟨[], [], [], NewProfile "vim" [], [], [], [], none⟩).1 rfl rfl

/-- claim C3 — For every profile, the identity key (GUID) is a deterministic
function of the profile's name: computing it twice for the same name yields
the identical identity key even if every other field of the source data
changes, and the key is the name itself (non-empty whenever the name is). -/
theorem guid_deterministic (name : String) (c₁ c₂ : List (String × String)) :
    (NewProfile name c₁).GUID = (NewProfile name c₂).GUID ∧
    (NewProfile name c₁).GUID = name :=
  ⟨rfl, rfl⟩

theorem optionMapM_eq_none_of_mem {α β : Type} (f : α → Option β)
    (l : List α) (x : α) (hx : x ∈ l) (hf : f x = none) :
    optionMapM f l = none := by
  induction l with
  | nil => exact absurd hx (List.not_mem_nil x)
  | cons a as ih =>
    rcases List.mem_cons.mp hx with rfl | hx'
    · simp [optionMapM, hf]
    · cases hfa : f a with
      | none => simp [optionMapM, hfa]
      | some b => simp [optionMapM, hfa, ih hx']

theorem optionMapM_isSome {α β : Type} (f : α → Option β) (l : List α)
    (h : ∀ x ∈ l, (f x).isSome) : (optionMapM f l).isSome := by
  induction l with
  | nil => simp [optionMapM]
  | cons a as ih =>
    rcases Option.isSome_iff_exists.mp (h a (List.mem_cons_self _ _)) with ⟨b, hb⟩
    rcases Option.isSome_iff_exists.mp
      (ih fun x hx => h x (List.mem_cons_of_mem _ hx)) with ⟨bs, hbs⟩
    simp [optionMapM, hb, hbs]

theorem profileTree_children_nonempty (l : List Profile) :
    ∀ g ∈ ProfileTree l, g.2 ≠ [] := by
  intro g hg
  rcases List.mem_map.mp hg with ⟨s, hs, rfl⟩
  have hs' : s ∈ l.filterMap sourceLabel := List.mem_dedup.mp hs
  rcases List.mem_filterMap.mp hs' with ⟨p, hp, hps⟩
  intro hemp
  have hpmem : p ∈ l.filter (fun p => sourceLabel p == some s) :=
    List.mem_filter.mpr ⟨hp, by simp [hps]⟩
  rw [List.map_eq_nil_iff] at hemp
  rw [hemp] at hpmem
  exact List.not_mem_nil p hpmem

/-- claim C4 — Hierarchy derivation maps each source label to its ordered
child profiles (the profiles carrying that label, in collection order), found
by looking up the parent whose identity key — the name, for every profile the
engine constructs — equals the fixed prefix `login-` concatenated with the
child's source label; for every collection in which some source label has no
profile with that parent name, the run aborts fatally (`none`, the panic)
rather than silently dropping or regrouping the children, and when every
source label has its parent the run completes. -/
theorem hierarchy_missing_parent_fatal (l : List Profile) (command : String) :
    (∀ g ∈ ProfileTree l,
      g.2 = (l.filter (fun p => sourceLabel p == some g.1)).map (·.Name)) ∧
    ((∃ g ∈ ProfileTree l, ∀ p ∈ l, p.GUID ≠ "login-" ++ g.1) →
      generateCommands l command = none) ∧
    ((∀ g ∈ ProfileTree l, ∃ p ∈ l, p.GUID = "login-" ++ g.1) →
      (generateCommands l command).isSome) := by
  refine ⟨?_, ?_, ?_⟩
  · intro g hg
    rcases List.mem_map.mp hg with ⟨s, _, rfl⟩
    rfl
  · rintro ⟨⟨gs, gc⟩, hg, hnone⟩
    have hfind : FindGUID l ("login-" ++ gs) = none := by
      rw [FindGUID, List.find?_eq_none]
      intro p hp
      simp [hnone p hp]
    have hcmd : commandsForSource l command gs gc = none := by
      rcases gc with _ | ⟨c, cs⟩
      · exact absurd rfl (profileTree_children_nonempty l (gs, []) hg)
      · simp [commandsForSource, hfind]
    rw [generateCommands,
      optionMapM_eq_none_of_mem _ (ProfileTree l) (gs, gc) hg hcmd]
    rfl
  · intro hall
    rw [generateCommands]
    have hsome := optionMapM_isSome
      (fun g => commandsForSource l command g.1 g.2) (ProfileTree l) ?_
    · rcases Option.isSome_iff_exists.mp hsome with ⟨out, hout⟩
      simp [hout]
    · rintro ⟨gs, gc⟩ hg
      rcases hall (gs, gc) hg with ⟨p, hp, hpg⟩
      have hfind : (FindGUID l ("login-" ++ gs)).isSome := by
        rw [FindGUID]
        exact List.find?_isSome.mpr ⟨p, hp, by simp [hpg]⟩
      rcases Option.isSome_iff_exists.mp hfind with ⟨ip, hip⟩
      rcases gc with _ | ⟨c, cs⟩
      · simp [commandsForSource]
      · simp [commandsForSource, hip]

/-- Witness for claim C4 at concrete input: a collection holding only a child
labelled `prod` and no `login-prod` parent makes the command-generation run
abort with `none`. -/
theorem hierarchy_missing_parent_fatal_witness :
    generateCommands [orphanChild] "aws s3 ls" = none :=
  (hierarchy_missing_parent_fatal [orphanChild] "aws s3 ls").2.1
    ⟨("prod", ["-dev"]), by decide, by decide⟩

theorem notFound_second_char (tool : String) :
    (notFound tool).data.get? 1 = some '(' := rfl

theorem not_notFound_of_second_char {s : String} {c : Char}
    (hc : s.data.get? 1 = some c) (hne : c ≠ '(') :
    ¬ ∃ tool, s = notFound tool := by
  rintro ⟨tool, rfl⟩
  rw [notFound_second_char] at hc
  exact hne (Option.some.inj hc).symm

/-- claim C9 — Every missing-tool remediation trigger (a trigger whose regex
is the command-not-found pattern of some tool) injects a command that is an
ordered fallback chain over three package-manager syntaxes, joined by the
shell's `||` operator: try the apt-get install; only on its failure try the
yum install; only on that failure try the apk install.  The chain is a fixed
string, with no runtime detection of which package manager is present. -/
theorem missing_tool_fallback_chain (idRsa idEd : String) :
    ∀ t ∈ Triggers idRsa idEd, (∃ tool, t.Regex = notFound tool) →
      ∃ tool, t.Parameter =
        aptGetInstall tool ++ " || " ++ yum tool ++ " || " ++ apk tool := by
  intro t ht hex
  simp only [Triggers, List.mem_cons, List.not_mem_nil, or_false] at ht
  rcases ht with rfl | rfl | rfl | rfl | rfl | rfl | rfl | rfl
  · exact absurd hex (not_notFound_of_second_char rfl (by decide))
  · exact absurd hex (not_notFound_of_second_char rfl (by decide))
  · exact ⟨"openssh-client", by decide⟩
  · exact ⟨"git", by decide⟩
  · exact ⟨"iputils-ping", by decide⟩
  · exact absurd hex (not_notFound_of_second_char rfl (by decide))
  · exact absurd hex (not_notFound_of_second_char rfl (by decide))
  · exact absurd hex (not_notFound_of_second_char rfl (by decide))

/-- Witness for claim C9 at concrete input: the missing-git trigger's
injected command is the three-manager fallback chain. -/
theorem missing_tool_fallback_chain_witness :
    ∃ tool, gitNotFoundTrigger.Parameter =
      aptGetInstall tool ++ " || " ++ yum tool ++ " || " ++ apk tool :=
  missing_tool_fallback_chain "/root/.ssh/id_rsa" "/root/.ssh/id_ed25519"
    gitNotFoundTrigger (by decide) ⟨"git", rfl⟩

/-- claim C2 — Evaluation of the discovery fan-out at the failing schedule:
two scopes both report instance `i-123`, and both workers pass the
accumulator membership check before either inserts (schedule 0,1,0,1 — the
code permits this because the check and the insert run outside the mutex).
The fan-out then emits TWO profiles for the one instance, refuting the
claimed atomic check-then-insert; the accumulator does end with a single
entry, and under a fully serialized schedule (0,0,1,1) exactly one profile is
emitted, which is the behaviour the claim (and the spec) require. -/
theorem fanout_dedup_race :
    ((ssmRun ⟨[], []⟩ [scopeP1, scopeP2] [0, 1, 0, 1]).1.emitted.map (·.Name) =
      ["alias1:eu-west-1:ssm-web", "alias2:eu-west-1:ssm-web"]) ∧
    ((ssmRun ⟨[], []⟩ [scopeP1, scopeP2] [0, 1, 0, 1]).1.instances =
      [("i-123", "web")]) ∧
    ((ssmRun ⟨[], []⟩ [scopeP1, scopeP2] [0, 0, 1, 1]).1.emitted.map (·.Name) =
      ["alias1:eu-west-1:ssm-web"]) := by
  decide

/-- claim C7 — Evaluation of one scope's unit of work when the alias call
(step 2) fails: the code logs the error and then dereferences the nil
ListAccountAliases response, so the scope panics instead of completing with
the raw account identity.  The raw-identity fallback the claim describes is
reached only when the alias call SUCCEEDS with an empty alias list, as the
second conjunct shows (the emitted profile is then named with the raw
account id). -/
theorem alias_failure_crashes_scope :
    generateForProfile aliasFailEnv "p1" "eu-west-1" [] =
      .crash "invalid memory address: accountAliases.AccountAliases on nil ListAccountAliases output" ∧
    generateForProfile { aliasFailEnv with accountAliases := some [] }
        "p1" "eu-west-1" [] =
      .ok [ssmProfile "p1" "eu-west-1" "123456789012" "123456789012" "web"]
        [("i-1", "web")] := by
  decide
